import Mathlib

/-!
# Verification of the pizza-app cart-and-order engine

Shallow embedding of the cart/pricing/checkout/order-status logic shared by
`frontend/src/App.js` and `mobile/App.js` (the two client variants duplicate the
CartProvider verbatim), together with proofs of the spec's testable properties.

Prices are embedded as exact rationals (`ℚ`), matching the spec's stipulation
that subtotal/tax/total are exact with no intermediate rounding; quantities are
integers (`ℤ`), the type the UI call sites supply.
-/

namespace PizzaApp

/-- A product size option, as in the catalog data consumed by `addToCart`:
`{name, price}`. -/
structure Size where
  name : String
  price : ℚ
  deriving DecidableEq, Repr

/-- A catalog product as consumed by the cart code: `id`, `name`, base `price`,
`image_url`. (Category, ingredients and flags are never read by the cart.) -/
structure Product where
  id : String
  name : String
  price : ℚ
  image_url : String
  deriving DecidableEq, Repr

/-- One cart line, exactly the object literal built in `addToCart`:
`{key, product_id, name, price, quantity, size, image_url}`. -/
structure CartItem where
  key : String
  product_id : String
  name : String
  price : ℚ
  quantity : ℤ
  size : Option String
  image_url : String
  deriving DecidableEq, Repr

/-- `size ? size.price : product.price` — any size object is truthy in JS, so
the size price is used whenever a size is passed. -/
def unitPrice (product : Product) (size : Option Size) : ℚ :=
  match size with
  | some s => s.price
  | none => product.price

/-- The size component of the composite key: `size?.name || 'default'`.
JS `||` falls through on the empty string, so a size named `""` also yields
`"default"`. -/
def sizeKeyName (size : Option Size) : String :=
  match size with
  | some s => if s.name = "" then "default" else s.name
  | none => "default"

/-- The composite cart key: `` `${product.id}-${size?.name || 'default'}` ``. -/
def itemKey (product : Product) (size : Option Size) : String :=
  product.id ++ "-" ++ sizeKeyName size

/-- The `size` field stored on a line: `size?.name || null`. -/
def sizeField (size : Option Size) : Option String :=
  match size with
  | some s => if s.name = "" then none else some s.name
  | none => none

/-- The fresh line appended by `addToCart` when no line with the key exists. -/
def newLine (product : Product) (size : Option Size) (quantity : ℤ) : CartItem :=
  { key := itemKey product size
    product_id := product.id
    name := product.name
    price := unitPrice product size
    quantity := quantity
    size := sizeField size
    image_url := product.image_url }

/-- `addToCart(product, size = null, quantity = 1)` from the CartProvider
(frontend `App.js` lines 97–119, mobile lines 103–128, identical): if a line
with the composite key exists its quantity is incremented by `quantity` and all
other fields (the price snapshot included) are kept; otherwise a fresh line is
appended at the end. -/
def addToCart (product : Product) (size : Option Size) (quantity : ℤ)
    (prev : List CartItem) : List CartItem :=
  match prev.find? (fun item => item.key = itemKey product size) with
  | some _ =>
      prev.map (fun item =>
        if item.key = itemKey product size then
          { item with quantity := item.quantity + quantity }
        else item)
  | none => prev ++ [newLine product size quantity]

/-- `removeFromCart(key)`: filters the line with that key out. -/
def removeFromCart (key : String) (prev : List CartItem) : List CartItem :=
  prev.filter (fun item => item.key ≠ key)

/-- `updateQuantity(key, quantity)`: `quantity ≤ 0` delegates to
`removeFromCart`; otherwise the matching line's quantity is set (not added). -/
def updateQuantity (key : String) (quantity : ℤ) (prev : List CartItem) :
    List CartItem :=
  if quantity ≤ 0 then removeFromCart key prev
  else prev.map (fun item =>
    if item.key = key then { item with quantity := quantity } else item)

/-- `clearCart()`: resets the collection to `[]`. -/
def clearCart : List CartItem := []

/-- `cartTotal = cartItems.reduce((total, item) => total + item.price * item.quantity, 0)`
(frontend line 143, mobile line 148). Note: no tax is included here. -/
def cartTotal (cartItems : List CartItem) : ℚ :=
  cartItems.foldl (fun total item => total + item.price * (item.quantity : ℚ)) 0

/-- `cartCount = cartItems.reduce((total, item) => total + item.quantity, 0)`. -/
def cartCount (cartItems : List CartItem) : ℤ :=
  cartItems.foldl (fun total item => total + item.quantity) 0

/-- `taxAmount = cartTotal * 0.08` (CartPage, frontend line 1190). -/
def taxAmount (cartItems : List CartItem) : ℚ :=
  cartTotal cartItems * (8 / 100)

/-- `totalWithTax = cartTotal + taxAmount` (CartPage, frontend line 1191). -/
def totalWithTax (cartItems : List CartItem) : ℚ :=
  cartTotal cartItems + taxAmount cartItems

/-- An authenticated user as seen by the checkout code (only presence and the
prefill fields matter to it). -/
structure User where
  phone : String
  address : String
  deriving DecidableEq, Repr

/-- The `orderDetails` form state of `CartPage`. -/
structure OrderDetails where
  phone : String
  delivery_address : String
  notes : String
  deriving DecidableEq, Repr

/-- One element of the `items` array posted to `POST /orders`:
`{product_id, quantity, size, price}`. -/
structure OrderReqItem where
  product_id : String
  quantity : ℤ
  size : Option String
  price : ℚ
  deriving DecidableEq, Repr

/-- The request body built by `handleCheckout`. -/
structure OrderData where
  items : List OrderReqItem
  phone : String
  delivery_address : String
  notes : String
  deriving DecidableEq, Repr

/-- `cartItems.map(item => ({product_id, quantity, size, price}))` — the order
lines are a field-by-field copy of the cart lines (frontend lines 1205–1210). -/
def orderDataItems (cartItems : List CartItem) : List OrderReqItem :=
  cartItems.map (fun item =>
    { product_id := item.product_id
      quantity := item.quantity
      size := item.size
      price := item.price })

/-- Outcome of the awaited `axios.post` call, abstracting the transport: the
`catch` branch of `handleCheckout` covers every failure uniformly. -/
inductive PostResult where
  | success
  | failure
  deriving DecidableEq, Repr

/-- The order-submission behavior of `CartPage` (frontend lines 1180–1249):
when the cart is empty the component returns the empty-state markup before the
checkout form exists, so no request can be issued; `handleCheckout` itself
returns after a toast when no user is logged in; otherwise it posts the order
data and calls `clearCart()` only after the post resolves successfully, while
the `catch` branch leaves the cart untouched. Returns the request issued (if
any) paired with the resulting cart. -/
def cartPageCheckout (user : Option User) (details : OrderDetails)
    (result : PostResult) (cartItems : List CartItem) :
    Option OrderData × List CartItem :=
  if cartItems.isEmpty then (none, cartItems)
  else
    match user with
    | none => (none, cartItems)
    | some _ =>
        let data : OrderData :=
          { items := orderDataItems cartItems
            phone := details.phone
            delivery_address := details.delivery_address
            notes := details.notes }
        match result with
        | .success => (some data, clearCart)
        | .failure => (some data, cartItems)

/-! ## Order status lifecycle -/

/-- The six order statuses offered by the admin UI selector. -/
inductive OrderStatus where
  | pending
  | confirmed
  | preparing
  | ready
  | delivered
  | cancelled
  deriving DecidableEq, Repr

/-- Modelled from the spec: the backend endpoint behind
`PUT /orders/{id}/status` — the component that accepts or rejects a requested
transition — is not among the client sources in this repository (the frontend
`updateOrderStatus` only forwards the request). Spec §4.4: the forward path is
`pending → confirmed → preparing → ready → delivered`, any non-terminal state
may move to `cancelled`, and no other transition is legal. -/
def legalTransition : OrderStatus → OrderStatus → Bool
  | .pending, .confirmed => true
  | .confirmed, .preparing => true
  | .preparing, .ready => true
  | .ready, .delivered => true
  | .pending, .cancelled => true
  | .confirmed, .cancelled => true
  | .preparing, .cancelled => true
  | .ready, .cancelled => true
  | _, _ => false

/-- Modelled from the spec: the status-update operation. A legal request
returns the new status; an illegal one is rejected with a descriptive error
carrying the current and requested states (§4.4, §7 IllegalTransitionError). -/
def updateOrderStatus (current requested : OrderStatus) :
    Except (OrderStatus × OrderStatus) OrderStatus :=
  if legalTransition current requested then .ok requested
  else .error (current, requested)

/-- The status actually stored after a transition request: a rejected request
must not mutate the order (§4.4). -/
def resultingStatus (current requested : OrderStatus) : OrderStatus :=
  match updateOrderStatus current requested with
  | .ok s => s
  | .error _ => current

/-! ## Catalog world, for the price-snapshot hyperproperty -/

/-- The state visible to the menu and cart pages: the fetched product catalog
and the session's cart. -/
structure World where
  catalog : List Product
  cart : List CartItem
  deriving Repr

/-- The UI add path: the product object is looked up in the fetched catalog and
passed to `addToCart` (e.g. `addToCart(product, selectedSize)`); an id absent
from the catalog has no button, hence no effect. -/
def addFromCatalog (pid : String) (size : Option Size) (quantity : ℤ)
    (w : World) : World :=
  match w.catalog.find? (fun p => p.id = pid) with
  | some p => { w with cart := addToCart p size quantity w.cart }
  | none => w

/-- An external catalog mutation: the admin product editor changes the stored
price of one product; carts are not touched by the catalog collaborator. -/
def setCatalogPrice (pid : String) (newPrice : ℚ) (w : World) : World :=
  { w with
    catalog := w.catalog.map (fun p =>
      if p.id = pid then { p with price := newPrice } else p) }

/-- The order lines checkout would produce from the current world. -/
def checkoutItems (w : World) : List OrderReqItem :=
  orderDataItems w.cart

/-! ## Operation sequences, for the quantity invariant -/

/-- One CartEngine operation, as exposed by the CartProvider. -/
inductive CartOp where
  | add (product : Product) (size : Option Size) (quantity : ℤ)
  | update (key : String) (quantity : ℤ)
  | remove (key : String)
  | clear
  deriving Repr

/-- Apply one operation to a cart. -/
def applyOp (op : CartOp) (cart : List CartItem) : List CartItem :=
  match op with
  | .add p s q => addToCart p s q cart
  | .update k q => updateQuantity k q cart
  | .remove k => removeFromCart k cart
  | .clear => clearCart

/-- Run a sequence of operations starting from the empty cart. -/
def runOps (ops : List CartOp) : List CartItem :=
  ops.foldl (fun cart op => applyOp op cart) []

/-- The quantity an `add` operation carries (`none` for the other operations),
used to state which sequences keep the quantity invariant. -/
def addQuantity : CartOp → Option ℤ
  | .add _ _ q => some q
  | _ => none

/-! ## The spec's PricingCalculator (§4.1), for comparison with `cartTotal` -/

/-- Spec §4.1: `subtotal = Σ(unit_price × quantity)`. -/
def pricingSubtotal (items : List CartItem) : ℚ :=
  (items.map (fun item => item.price * (item.quantity : ℚ))).sum

/-- Spec §4.1: `tax = subtotal × TAX_RATE` with `TAX_RATE = 0.08`. -/
def pricingTax (items : List CartItem) : ℚ :=
  pricingSubtotal items * (8 / 100)

/-- Spec §4.1: `total = subtotal + tax`. -/
def pricingTotal (items : List CartItem) : ℚ :=
  pricingSubtotal items + pricingTax items

/-- The quantity carried by an `add` operation; `1` for the other operations
(which carry no add-quantity), so that `1 ≤ opAddQty op` states exactly
"if `op` is an add, its quantity is at least 1". -/
def opAddQty : CartOp → ℤ
  | .add _ _ q => q
  | _ => 1

/-! ## Concrete inputs used by scenario conjuncts, witnesses and
counterexamples -/

/-- The spec's §8.4 scenario cart:
`[{unit_price 16.95, qty 2}, {unit_price 10.95, qty 1}]`. -/
def scenarioCart : List CartItem :=
  [{ key := "a-default", product_id := "a", name := "Large Pizza",
     price := 1695 / 100, quantity := 2, size := none, image_url := "" },
   { key := "b-default", product_id := "b", name := "Calzone",
     price := 1095 / 100, quantity := 1, size := none, image_url := "" }]

/-- A one-line cart used to compare `cartTotal` with the PricingCalculator. -/
def unitCart : List CartItem :=
  [{ key := "p-default", product_id := "p", name := "Pizza",
     price := 10, quantity := 1, size := none, image_url := "" }]

/-- A concrete catalog product. -/
def exProduct : Product :=
  { id := "p1", name := "Margherita", price := 10, image_url := "" }

/-- The same product after a later catalog price change. -/
def exProductLater : Product :=
  { id := "p1", name := "Margherita", price := 12, image_url := "" }

/-- A concrete cart line. -/
def exItem : CartItem :=
  { key := "k", product_id := "p", name := "Pizza", price := 10, quantity := 1,
    size := none, image_url := "" }

/-- A concrete logged-in user. -/
def exUser : User :=
  { phone := "5550100", address := "1 Main St" }

/-- Concrete checkout form contents. -/
def exDetails : OrderDetails :=
  { phone := "5550100", delivery_address := "1 Main St", notes := "" }

/-! ## Helper lemmas -/

/-- Folding `+ f x` over a list from `a` is `a` plus the sum of the images. -/
theorem foldl_add_eq_sum {α M : Type} [AddCommMonoid M] (f : α → M)
    (l : List α) (a : M) :
    l.foldl (fun acc x => acc + f x) a = a + (l.map f).sum := by
  induction l generalizing a with
  | nil => simp
  | cons b t ih => simp [ih, add_assoc]

/-- Mapping a function that fixes every element of a list is the identity. -/
theorem map_eq_self_of_fixed {α : Type} (f : α → α) (l : List α)
    (h : ∀ x ∈ l, f x = x) : l.map f = l := by
  induction l with
  | nil => rfl
  | cons a t ih =>
    simp only [List.map_cons, h a (List.mem_cons_self a t),
      ih (fun x hx => h x (List.mem_cons_of_mem a hx))]

/-- `find?` on `l ++ [a]` returns `a` when nothing in `l` satisfies `p` but
`a` does. -/
theorem find?_append_singleton {α : Type} (p : α → Bool) (l : List α) (a : α)
    (h : ∀ x ∈ l, ¬ p x) (ha : p a) : (l ++ [a]).find? p = some a := by
  induction l with
  | nil => simp [List.find?, ha]
  | cons b t ih =>
    have hb : p b = false := by
      have := h b (List.mem_cons_self b t)
      simpa using this
    simp only [List.cons_append, List.find?, hb]
    exact ih (fun x hx => h x (List.mem_cons_of_mem b hx))

/-- `addToCart` on a cart holding no line with the key appends a fresh line. -/
theorem addToCart_fresh (P : Product) (S : Option Size) (n : ℤ)
    (prev : List CartItem) (h : ∀ item ∈ prev, item.key ≠ itemKey P S) :
    addToCart P S n prev = prev ++ [newLine P S n] := by
  have hnone : prev.find? (fun item => item.key = itemKey P S) = none :=
    List.find?_eq_none.mpr (fun x hx => by simpa using h x hx)
  unfold addToCart
  rw [hnone]

/-- `addToCart` on a cart holding a line with the key increments in place. -/
theorem addToCart_existing (P : Product) (S : Option Size) (n : ℤ)
    (prev : List CartItem) (x : CartItem)
    (hfind : prev.find? (fun item => item.key = itemKey P S) = some x) :
    addToCart P S n prev =
      prev.map (fun item =>
        if item.key = itemKey P S then
          { item with quantity := item.quantity + n }
        else item) := by
  unfold addToCart
  rw [hfind]

/-- One cart operation preserves "every quantity is at least 1" as long as an
`add`'s quantity is at least 1. -/
theorem applyOp_preserves_qty (op : CartOp) (cart : List CartItem)
    (hc : ∀ item ∈ cart, 1 ≤ item.quantity) (hop : 1 ≤ opAddQty op) :
    ∀ item ∈ applyOp op cart, 1 ≤ item.quantity := by
  cases op with
  | add P S q =>
    have hq : 1 ≤ q := hop
    intro item hmem
    simp only [applyOp, addToCart] at hmem
    cases hfind : cart.find? (fun i => i.key = itemKey P S) with
    | some x =>
      rw [hfind] at hmem
      rcases List.mem_map.mp hmem with ⟨j, hj, rfl⟩
      by_cases hk : j.key = itemKey P S
      · rw [if_pos hk]
        have := hc j hj
        show 1 ≤ j.quantity + q
        omega
      · rw [if_neg hk]
        exact hc j hj
    | none =>
      rw [hfind] at hmem
      rcases List.mem_append.mp hmem with hin | hin
      · exact hc item hin
      · rcases List.mem_singleton.mp hin with rfl
        exact hq
  | update k q =>
    intro item hmem
    simp only [applyOp, updateQuantity] at hmem
    by_cases hq : q ≤ 0
    · rw [if_pos hq] at hmem
      simp only [removeFromCart] at hmem
      exact hc item (List.mem_of_mem_filter hmem)
    · rw [if_neg hq] at hmem
      rcases List.mem_map.mp hmem with ⟨j, hj, rfl⟩
      by_cases hk : j.key = k
      · rw [if_pos hk]
        show 1 ≤ q
        omega
      · rw [if_neg hk]
        exact hc j hj
  | remove k =>
    intro item hmem
    simp only [applyOp, removeFromCart] at hmem
    exact hc item (List.mem_of_mem_filter hmem)
  | clear =>
    intro item hmem
    simp [applyOp, clearCart] at hmem

/-- The quantity invariant holds after folding any suffix of operations over a
cart that already satisfies it. -/
theorem foldl_ops_preserves_qty (ops : List CartOp) (cart : List CartItem)
    (hc : ∀ item ∈ cart, 1 ≤ item.quantity)
    (h : ∀ op ∈ ops, 1 ≤ opAddQty op) :
    ∀ item ∈ ops.foldl (fun c op => applyOp op c) cart, 1 ≤ item.quantity := by
  induction ops generalizing cart with
  | nil => simpa using hc
  | cons op t ih =>
    simp only [List.foldl_cons]
    exact ih (applyOp op cart)
      (applyOp_preserves_qty op cart hc (h op (List.mem_cons_self op t)))
      (fun o ho => h o (List.mem_cons_of_mem op ho))

/-! ## Claim theorems -/

/-- C2: for every list of cart lines the computed subtotal (`cartTotal`) is
the sum over lines of unit price times quantity, the tax is exactly `0.08`
times the subtotal with no intermediate rounding, and the total is subtotal
plus tax; on the scenario cart
`[{unit_price 16.95, qty 2}, {unit_price 10.95, qty 1}]` the subtotal is
`44.85`, the tax `3.588` and the total `48.438`. -/
theorem cart_totals_exact (items : List CartItem) :
    cartTotal items = (items.map (fun i => i.price * (i.quantity : ℚ))).sum ∧
    taxAmount items = (8 / 100) * cartTotal items ∧
    totalWithTax items = cartTotal items + taxAmount items ∧
    cartTotal scenarioCart = 4485 / 100 ∧
    taxAmount scenarioCart = 3588 / 1000 ∧
    totalWithTax scenarioCart = 48438 / 1000 := by
  refine ⟨?_, mul_comm _ _, rfl, ?_, ?_, ?_⟩
  · simpa using foldl_add_eq_sum (fun i : CartItem => i.price * (i.quantity : ℚ)) items 0
  · norm_num [cartTotal, scenarioCart]
  · norm_num [taxAmount, cartTotal, scenarioCart]
  · norm_num [totalWithTax, taxAmount, cartTotal, scenarioCart]

/-- C3: a status transition is accepted exactly along the forward path
`pending → confirmed → preparing → ready → delivered` or from a non-terminal
state to `cancelled`; every other request is rejected and leaves the stored
status unchanged. -/
theorem status_transition_rules (cur req : OrderStatus) :
    (legalTransition cur req = true ↔
      ((cur = .pending ∧ req = .confirmed) ∨
       (cur = .confirmed ∧ req = .preparing) ∨
       (cur = .preparing ∧ req = .ready) ∨
       (cur = .ready ∧ req = .delivered) ∨
       ((cur = .pending ∨ cur = .confirmed ∨ cur = .preparing ∨ cur = .ready) ∧
        req = .cancelled))) ∧
    (legalTransition cur req = false → resultingStatus cur req = cur) := by
  cases cur <;> cases req <;> decide

/-- C3 witness: `pending → delivered` is rejected and the status stays
`pending`; `delivered → cancelled` is rejected and the status stays
`delivered`; `pending → cancelled` is accepted. -/
theorem status_transition_rules_witness :
    resultingStatus .pending .delivered = .pending ∧
    resultingStatus .delivered .cancelled = .delivered ∧
    legalTransition .pending .cancelled = true :=
  ⟨(status_transition_rules .pending .delivered).2 (by decide),
   (status_transition_rules .delivered .cancelled).2 (by decide),
   (status_transition_rules .pending .cancelled).1.mpr (by decide)⟩

/-- C6: with an empty cart the cart page issues no order submission request —
the empty-cart branch renders before the checkout form exists — and the cart
stays empty. -/
theorem empty_cart_no_request (user : Option User) (d : OrderDetails)
    (r : PostResult) :
    (cartPageCheckout user d r []).1 = none ∧
    (cartPageCheckout user d r []).2 = [] :=
  ⟨rfl, rfl⟩

/-- C7: changing a product's catalog price after an item was added changes
neither the cart lines (their stored price snapshots included) nor the order
lines checkout would produce from them — order lines are copies of the cart
lines, never a re-lookup of the catalog. -/
theorem catalog_price_change_no_effect (w : World) (pid : String)
    (size : Option Size) (q : ℤ) (pid' : String) (newPrice : ℚ) :
    (setCatalogPrice pid' newPrice (addFromCatalog pid size q w)).cart
        = (addFromCatalog pid size q w).cart ∧
    checkoutItems (setCatalogPrice pid' newPrice (addFromCatalog pid size q w))
        = checkoutItems (addFromCatalog pid size q w) :=
  ⟨rfl, rfl⟩

/-- C9 fails on the code: `cartTotal` — the CartEngine's derived total — does
not include the 8% tax, so it differs from the PricingCalculator's
subtotal-plus-tax total already on a one-line cart with unit price 10 and
quantity 1 (`10` versus `10.8`). -/
theorem cartTotal_ne_pricingTotal :
    cartTotal unitCart ≠ pricingTotal unitCart := by
  norm_num [cartTotal, unitCart, pricingTotal, pricingSubtotal, pricingTax]

/-- C9 amended: the CartEngine's derived `cartTotal` equals the
PricingCalculator's subtotal `Σ(unit_price × quantity)` — tax excluded, tax
being added separately at the cart page — and `cartCount` equals the sum of
quantities over all lines. -/
theorem cartTotal_eq_subtotal_and_count (items : List CartItem) :
    cartTotal items = pricingSubtotal items ∧
    cartCount items = (items.map (fun i => i.quantity)).sum := by
  constructor
  · simpa [pricingSubtotal] using
      foldl_add_eq_sum (fun i : CartItem => i.price * (i.quantity : ℚ)) items 0
  · simpa using foldl_add_eq_sum (fun i : CartItem => i.quantity) items 0

/-- C1: two `addToCart` calls on the same composite key — the second possibly
seeing a different product value for that key, e.g. after a catalog price
change — leave a single cart line for that key whose quantity is `n1 + n2`
and whose price snapshot is the one captured by the first add. -/
theorem addToCart_merge_first_snapshot (P P' : Product) (S S' : Option Size)
    (n1 n2 : ℤ) (prev : List CartItem)
    (hkey : itemKey P' S' = itemKey P S)
    (hfresh : ∀ item ∈ prev, item.key ≠ itemKey P S) :
    (addToCart P' S' n2 (addToCart P S n1 prev)).filter
        (fun item => item.key = itemKey P S)
      = [{ key := itemKey P S, product_id := P.id, name := P.name,
           price := unitPrice P S, quantity := n1 + n2, size := sizeField S,
           image_url := P.image_url }] := by
  have hLkey : (newLine P S n1).key = itemKey P S := rfl
  have h1 : addToCart P S n1 prev = prev ++ [newLine P S n1] :=
    addToCart_fresh P S n1 prev hfresh
  have hfind : (prev ++ [newLine P S n1]).find?
      (fun item => item.key = itemKey P' S') = some (newLine P S n1) := by
    rw [hkey]
    exact find?_append_singleton _ prev _
      (fun x hx => by simpa using hfresh x hx) (by simp [hLkey])
  have h2 : addToCart P' S' n2 (prev ++ [newLine P S n1])
      = prev ++ [{ newLine P S n1 with quantity := n1 + n2 }] := by
    rw [addToCart_existing P' S' n2 _ _ hfind, List.map_append]
    congr 1
    · exact map_eq_self_of_fixed _ prev
        (fun x hx => if_neg (by rw [hkey]; exact hfresh x hx))
    · simp only [List.map_cons, List.map_nil]
      rw [if_pos (by rw [hkey]; exact hLkey)]
      rfl
  rw [h1, h2, List.filter_append]
  have hprev : prev.filter (fun item => item.key = itemKey P S) = [] :=
    List.filter_eq_nil_iff.mpr (fun a ha => by simpa using hfresh a ha)
  rw [hprev]
  simp [newLine, hLkey]

/-- C1 witness: re-adding product `p1` after its catalog price rose from 10
to 12 merges into one line of quantity `2 + 3 = 5` priced at the first
snapshot, 10. -/
theorem addToCart_merge_first_snapshot_witness :
    (addToCart exProductLater none 3 (addToCart exProduct none 2 [])).filter
        (fun item => item.key = itemKey exProduct none)
      = [{ key := itemKey exProduct none, product_id := "p1",
           name := "Margherita", price := 10, quantity := 5, size := none,
           image_url := "" }] :=
  addToCart_merge_first_snapshot exProduct exProductLater none none 2 3 []
    rfl (by simp)

/-- C4: with a logged-in user and a non-empty cart, checkout clears the cart
exactly when the order submission succeeds; on any failure the cart lines are
left exactly as they were, so the user can retry. -/
theorem checkout_clears_iff_success (u : User) (d : OrderDetails)
    (r : PostResult) (cart : List CartItem) (hcart : cart ≠ []) :
    ((cartPageCheckout (some u) d r cart).2 = [] ↔ r = .success) ∧
    (r = .failure → (cartPageCheckout (some u) d r cart).2 = cart) := by
  have hne : cart.isEmpty = false := by
    cases cart with
    | nil => exact absurd rfl hcart
    | cons a t => rfl
  cases r with
  | success => simp [cartPageCheckout, hne, clearCart]
  | failure => simp [cartPageCheckout, hne, hcart]

/-- C4 witness: on a one-line cart a failed submission leaves the line in
place and a successful one empties the cart. -/
theorem checkout_clears_iff_success_witness :
    (cartPageCheckout (some exUser) exDetails .failure [exItem]).2 = [exItem] ∧
    (cartPageCheckout (some exUser) exDetails .success [exItem]).2 = [] :=
  ⟨(checkout_clears_iff_success exUser exDetails .failure [exItem]
      (by simp)).2 rfl,
   (checkout_clears_iff_success exUser exDetails .success [exItem]
      (by simp)).1.mpr rfl⟩

/-- C5: `updateQuantity(key, q)` with `q ≤ 0` is exactly `removeFromCart
(key)`; with `q > 0` it sets the matching line's quantity to `q` (not
additively) and leaves other lines as members of the original cart; on an
absent key both operations are no-ops, and repeating `removeFromCart` is
idempotent. -/
theorem updateQuantity_semantics (key : String) (q : ℤ)
    (prev : List CartItem) :
    (q ≤ 0 → updateQuantity key q prev = removeFromCart key prev) ∧
    (0 < q → ∀ item ∈ updateQuantity key q prev,
        (item.key = key → item.quantity = q) ∧
        (item.key ≠ key → item ∈ prev)) ∧
    ((∀ item ∈ prev, item.key ≠ key) →
        updateQuantity key q prev = prev ∧ removeFromCart key prev = prev) ∧
    removeFromCart key (removeFromCart key prev) = removeFromCart key prev := by
  refine ⟨fun h => by simp [updateQuantity, h], ?_, ?_, ?_⟩
  · intro hq item hmem
    simp only [updateQuantity, if_neg (not_le.mpr hq)] at hmem
    rcases List.mem_map.mp hmem with ⟨j, hj, rfl⟩
    by_cases hk : j.key = key
    · rw [if_pos hk]
      exact ⟨fun _ => rfl, fun hne => absurd hk hne⟩
    · rw [if_neg hk]
      exact ⟨fun hkk => absurd hkk hk, fun _ => hj⟩
  · intro h
    have hrem : removeFromCart key prev = prev :=
      List.filter_eq_self.mpr (fun a ha => by simpa using h a ha)
    refine ⟨?_, hrem⟩
    by_cases hq : q ≤ 0
    · rw [updateQuantity, if_pos hq]
      exact hrem
    · rw [updateQuantity, if_neg hq]
      exact map_eq_self_of_fixed _ prev (fun x hx => if_neg (h x hx))
  · simp [removeFromCart, List.filter_filter]

/-- C5 witness: `updateQuantity("k", 0)` on the one-line cart acts as
`removeFromCart("k")`, and both operations on the absent key `"absent"` are
no-ops. -/
theorem updateQuantity_semantics_witness :
    updateQuantity "k" 0 [exItem] = removeFromCart "k" [exItem] ∧
    updateQuantity "absent" 5 [exItem] = [exItem] ∧
    removeFromCart "absent" [exItem] = [exItem] :=
  ⟨(updateQuantity_semantics "k" 0 [exItem]).1 (by decide),
   ((updateQuantity_semantics "absent" 5 [exItem]).2.2.1 (by decide)).1,
   ((updateQuantity_semantics "absent" 5 [exItem]).2.2.1 (by decide)).2⟩

/-- C8 fails on the code: `addToCart` neither rejects nor clamps a quantity
below 1 — the single operation `addItem(exProduct, no size, 0)` run from the
empty cart produces a cart line with quantity 0. -/
theorem add_nonpositive_quantity_breaks_invariant :
    (runOps [CartOp.add exProduct none 0]).all
        (fun item => 1 ≤ item.quantity) = false := by
  decide

/-- C8 amended: starting from the empty cart, after every sequence of
add/update/remove/clear operations in which each add carries quantity ≥ 1 (as
every in-app call site does — the parameter defaults to 1), every cart line
has quantity ≥ 1; the code contains no rejection or clamp for smaller add
quantities. -/
theorem quantity_invariant_of_positive_adds (ops : List CartOp)
    (h : ∀ op ∈ ops, 1 ≤ opAddQty op) :
    ∀ item ∈ runOps ops, 1 ≤ item.quantity :=
  foldl_ops_preserves_qty ops [] (by simp) h

/-- C8 amended witness: adding two pizzas and then setting the line's
quantity to 5 keeps every quantity at least 1. -/
theorem quantity_invariant_of_positive_adds_witness :
    (runOps [CartOp.add exProduct none 2,
             CartOp.update (itemKey exProduct none) 5]).all
        (fun item => 1 ≤ item.quantity) = true := by
  have h := quantity_invariant_of_positive_adds
    [CartOp.add exProduct none 2, CartOp.update (itemKey exProduct none) 5]
    (by decide)
  exact List.all_eq_true.mpr (fun item hmem => decide_eq_true (h item hmem))

/-- C10: the composite key is `product.id ++ "-" ++ (size name or
"default")`, so a size literally named `"default"` collides with the no-size
key: adding product `P` with no size and then with a size named `"default"`
(any size price `p`) merges into a single line of quantity `m + n` under the
first price snapshot `P.price`. -/
theorem default_size_key_collision (P : Product) (p : ℚ) (m n : ℤ) :
    itemKey P (some { name := "default", price := p }) = itemKey P none ∧
    addToCart P (some { name := "default", price := p }) n
        (addToCart P none m [])
      = [{ key := itemKey P none, product_id := P.id, name := P.name,
           price := P.price, quantity := m + n, size := none,
           image_url := P.image_url }] := by
  have hkey : itemKey P (some { name := "default", price := p })
      = itemKey P none := by
    simp [itemKey, sizeKeyName]
  refine ⟨hkey, ?_⟩
  have h1 : addToCart P none m [] = [newLine P none m] :=
    addToCart_fresh P none m [] (by simp)
  have hfind : [newLine P none m].find?
      (fun item =>
        item.key = itemKey P (some { name := "default", price := p }))
      = some (newLine P none m) := by
    rw [hkey]
    simpa using find?_append_singleton
      (fun item => item.key = itemKey P none) [] (newLine P none m)
      (by simp) (by simp [newLine, itemKey])
  rw [h1, addToCart_existing _ _ _ _ _ hfind]
  simp only [List.map_cons, List.map_nil]
  rw [if_pos (by rw [hkey]; rfl)]
  simp [newLine, unitPrice, sizeField, itemKey, sizeKeyName]

end PizzaApp
